import Mathlib

/-!
Shallow embedding of `src/stdext/unixext_read_stubs.c` from xen-api-libs.

The C file defines one OCaml FFI stub:

  #define BLOCK_SIZE 512
  CAMLprim value stub_stdext_unix_read(value fd, value buf, value ofs, value len)
  {
    long numbytes;
    int ret;
    void *iobuf = NULL;
    Begin_root (buf);
      numbytes = Long_val(len);
      ret = posix_memalign(&iobuf, BLOCK_SIZE, numbytes);
      if (ret != 0)
        uerror("read/posix_memalign", Nothing);
      enter_blocking_section();
      ret = read(Int_val(fd), iobuf, (int) numbytes);
      leave_blocking_section();
      if (ret == -1) uerror("read", Nothing);
      memmove (&Byte(buf, Long_val(ofs)), iobuf, ret);
      free(iobuf);
    End_roots();
    return Val_int(ret);
  }

Platform model (the code targets 64-bit Linux): C `long` and OCaml native
integers are modelled as unbounded `Int` (OCaml native ints lie strictly
between -2^62 and 2^62 on 64-bit platforms), the C `int` is a 32-bit
two's-complement integer (the explicit `(int) numbytes` cast is modelled by
`intCast`), and `size_t` is an unsigned 64-bit integer (`toSizeT`).

`posix_memalign(&p, align, size)` is modelled by its contract: on success it
stores into `p` an address that is a multiple of `align` (here the allocator
is free to pick any such address, `env.allocUnits * align`); on failure it
returns a nonzero error code and `p` is untouched.  `uerror(name, Nothing)`
raises the OCaml exception `Unix_error (code, name, "")`, where the code is
the `errno`-equivalent left by the failing call; raising an OCaml exception
transfers control out of the stub immediately, so statements after a taken
`uerror` branch never execute.  `read(fd, p, count)` is modelled by the state
of the descriptor: if the descriptor is in an error state (e.g. invalid or
closed) it returns -1 with an errno, otherwise it delivers the next
`min count MAX_RW_COUNT` bytes of the descriptor stream (the Linux kernel
caps every read(2) transfer at MAX_RW_COUNT = 0x7ffff000 bytes, so the
return value of a successful read always fits in a 32-bit int).  `memmove`
writes the given number of bytes at the given offset of the destination.

The result of a call is a `Trace` recording the observable interactions:
what was requested from the allocator, the staging address, every read
syscall issued (address and requested byte count), the memmove size, whether
`free(iobuf)` was executed, the final destination buffer, the remaining
descriptor stream, and the outcome (normal return or raised Unix_error).
-/

/-- The C `(int)` cast: reduce a mathematical integer to 32-bit
two's-complement.  2147483648 = 2^31, 4294967296 = 2^32 (numerals so that
`omega` can reason about them directly). -/
def intCast (n : Int) : Int :=
  (n + 2147483648) % 4294967296 - 2147483648

/-- Conversion of an integer to C `size_t` (unsigned 64-bit), as happens when
an `int` value is passed for a `size_t` parameter.  18446744073709551616 =
2^64. -/
def toSizeT (n : Int) : Nat :=
  ((n % 18446744073709551616)).toNat

/-- The alignment constant from the C file: `#define BLOCK_SIZE 512`. -/
def BLOCK_SIZE : Nat := 512

/-- Linux caps the number of bytes transferred by one read(2) call at
MAX_RW_COUNT = 0x7ffff000 = 2^31 - 2^12 bytes. -/
def MAX_RW_COUNT : Nat := 2147479552

/-- The environment of one call: the state of the OS facilities the stub
interacts with. -/
structure Env where
  /-- `some e` if `posix_memalign` fails, returning error code `e` (also the
  errno-equivalent that `uerror` then reports); `none` if it succeeds. -/
  allocFail : Option Nat
  /-- On success the allocator places the staging block at address
  `allocUnits * align` where `align` is the alignment it was asked for: an
  arbitrary address satisfying the alignment contract. -/
  allocUnits : Nat
  /-- `some e` if the descriptor is in an error state (invalid, closed, I/O
  error) making read(2) return -1 with errno `e`; `none` if it is readable. -/
  readErr : Option Nat
  /-- The bytes the descriptor delivers, in order. -/
  stream : List Nat
deriving DecidableEq

/-- How the call ends: a normal OCaml return of `Val_int n`, or a raised
`Unix_error (errno, callName, "")` coming from `uerror`. -/
inductive Outcome where
  | ok (n : Int)
  | unixError (errno : Nat) (callName : String)
deriving DecidableEq

/-- Observable interactions of one call. -/
structure Trace where
  /-- `(alignment, size)` passed to `posix_memalign`. -/
  allocReq : Option (Nat × Nat)
  /-- Address of the staging buffer, if allocation succeeded. -/
  allocAddr : Option Nat
  /-- Every read syscall issued, as `(address, requested byte count)`. -/
  reads : List (Nat × Nat)
  /-- Byte count passed to `memmove`, if it was reached. -/
  copied : Option Nat
  /-- Whether `free(iobuf)` was executed. -/
  freed : Bool
  /-- The destination buffer after the call. -/
  buf : List Nat
  /-- The bytes the descriptor still holds after the call. -/
  stream : List Nat
  /-- Normal return value or raised error. -/
  outcome : Outcome
deriving DecidableEq

/-- Model of `memmove(&Byte(dst, ofs), src, n)` where `src` holds the byte
list `srcBytes` (with `n = srcBytes.length`): positions `ofs ≤ i <
ofs + srcBytes.length` of `dst` receive `srcBytes[i - ofs]`, every other
position keeps its old value.  Writes past the end of `dst` are undefined
behaviour in C (the caller guarantees capacity); the model drops them. -/
def writeBytes (dst : List Nat) (ofs : Nat) (srcBytes : List Nat) : List Nat :=
  (List.range dst.length).map fun i =>
    if ofs ≤ i ∧ i < ofs + srcBytes.length then srcBytes.getD (i - ofs) 0
    else dst.getD i 0

/-- Shallow embedding of `stub_stdext_unix_read`.  `fd` only names the
descriptor; the descriptor state itself lives in `env`.  `buf` is the
destination byte buffer, `ofs` and `len` are the OCaml integers passed in
(`Long_val` of the corresponding `value`s). -/
def stub_stdext_unix_read (env : Env) (fd : Int) (buf : List Nat)
    (ofs : Int) (len : Int) : Trace :=
  -- numbytes = Long_val(len); posix_memalign(&iobuf, BLOCK_SIZE, numbytes):
  -- the long `numbytes` is converted to `size_t` for the size parameter.
  let numbytes : Int := len
  let allocSize : Nat := toSizeT numbytes
  match env.allocFail with
  | some e =>
      -- posix_memalign failed: uerror("read/posix_memalign") raises at once;
      -- iobuf is still NULL, nothing was allocated, nothing is freed.
      { allocReq := some (BLOCK_SIZE, allocSize), allocAddr := none,
        reads := [], copied := none, freed := false, buf := buf,
        stream := env.stream, outcome := .unixError e "read/posix_memalign" }
  | none =>
      -- Allocation succeeded: iobuf is a BLOCK_SIZE-aligned address.
      let iobuf : Nat := env.allocUnits * BLOCK_SIZE
      -- read(Int_val(fd), iobuf, (int) numbytes): the long is cast to int,
      -- then converted to size_t for read's count parameter.
      let count : Nat := toSizeT (intCast numbytes)
      match env.readErr with
      | some e =>
          -- read returned -1: uerror("read") raises at once.  Control leaves
          -- the stub before `free(iobuf)` is reached: the staging buffer is
          -- NOT freed on this path.
          { allocReq := some (BLOCK_SIZE, allocSize),
            allocAddr := some iobuf, reads := [(iobuf, count)],
            copied := none, freed := false, buf := buf,
            stream := env.stream, outcome := .unixError e "read" }
      | none =>
          -- read transferred the next min count MAX_RW_COUNT bytes of the
          -- stream; its ssize_t return value is assigned to the int `ret`.
          let data : List Nat := env.stream.take (min count MAX_RW_COUNT)
          let ret : Int := intCast data.length
          -- memmove(&Byte(buf, Long_val(ofs)), iobuf, ret): `ret` is
          -- converted to size_t; the staging buffer holds `data`.
          let moved : List Nat := data.take (toSizeT ret)
          { allocReq := some (BLOCK_SIZE, allocSize),
            allocAddr := some iobuf, reads := [(iobuf, count)],
            copied := some moved.length, freed := true,
            buf := writeBytes buf (toSizeT ofs) moved,
            stream := env.stream.drop (min count MAX_RW_COUNT),
            outcome := .ok ret }

/-! ### Arithmetic helper lemmas -/

theorem intCast_eq_self {n : Int} (h0 : 0 ≤ n) (h1 : n < 2147483648) :
    intCast n = n := by
  unfold intCast
  omega

theorem intCast_le_self {n : Int} (h0 : 0 ≤ n) : intCast n ≤ n := by
  unfold intCast
  omega

theorem toSizeT_eq_toNat {n : Int} (h0 : 0 ≤ n)
    (h1 : n < 18446744073709551616) : toSizeT n = n.toNat := by
  unfold toSizeT
  omega

theorem toSizeT_intCast_of_le (n : Nat) (h : n ≤ 2147479552) :
    toSizeT (intCast (n : Int)) = n := by
  unfold toSizeT intCast
  omega

/-! ### writeBytes lemmas -/

theorem writeBytes_length (dst : List Nat) (ofs : Nat) (srcBytes : List Nat) :
    (writeBytes dst ofs srcBytes).length = dst.length := by
  simp [writeBytes]

theorem writeBytes_getD (dst srcBytes : List Nat) (ofs i : Nat)
    (h : i < dst.length) :
    (writeBytes dst ofs srcBytes).getD i 0 =
      if ofs ≤ i ∧ i < ofs + srcBytes.length then srcBytes.getD (i - ofs) 0
      else dst.getD i 0 := by
  unfold writeBytes
  rw [List.getD_eq_getElem?_getD, List.getElem?_map, List.getElem?_range h]
  rfl

theorem writeBytes_getD_high (dst srcBytes : List Nat) (ofs i : Nat)
    (h : dst.length ≤ i) : (writeBytes dst ofs srcBytes).getD i 0 = 0 := by
  apply List.getD_eq_default
  simpa [writeBytes_length]

theorem list_ext_getD {l₁ l₂ : List Nat} (hl : l₁.length = l₂.length)
    (h : ∀ i, i < l₁.length → l₁.getD i 0 = l₂.getD i 0) : l₁ = l₂ := by
  apply List.ext_getElem hl
  intro i h₁ h₂
  have hi := h i h₁
  rwa [List.getD_eq_getElem _ _ h₁, List.getD_eq_getElem _ _ h₂] at hi

theorem writeBytes_nil (dst : List Nat) (ofs : Nat) :
    writeBytes dst ofs [] = dst := by
  apply list_ext_getD (writeBytes_length dst ofs [])
  intro i hi
  rw [writeBytes_length] at hi
  rw [writeBytes_getD dst [] ofs i hi,
    if_neg (by simp only [List.length_nil, Nat.add_zero]; omega)]

theorem take_getD (l : List Nat) (c j : Nat) (h : j < (l.take c).length) :
    (l.take c).getD j 0 = l.getD j 0 := by
  have h2 : j < l.length := by
    simp only [List.length_take] at h
    omega
  rw [List.getD_eq_getElem _ _ h, List.getD_eq_getElem _ _ h2]
  exact List.getElem_take l

/-! ### Path unfolding lemmas -/

/-- On the allocation-failure path the stub raises at once; no staging buffer
exists, no read happens, no byte of `buf` is written. -/
theorem stub_allocFail_eq (env : Env) (fd : Int) (buf : List Nat)
    (ofs len : Int) (e : Nat) (haf : env.allocFail = some e) :
    stub_stdext_unix_read env fd buf ofs len =
      { allocReq := some (BLOCK_SIZE, toSizeT len), allocAddr := none,
        reads := [], copied := none, freed := false, buf := buf,
        stream := env.stream, outcome := .unixError e "read/posix_memalign" } := by
  obtain ⟨af, au, re, st⟩ := env
  cases haf
  rfl

/-- On the read-error path the stub raises after the read syscall; the
staging buffer was allocated but is never freed, and `buf` is untouched. -/
theorem stub_readErr_eq (env : Env) (fd : Int) (buf : List Nat)
    (ofs len : Int) (e : Nat) (haf : env.allocFail = none)
    (hre : env.readErr = some e) :
    stub_stdext_unix_read env fd buf ofs len =
      { allocReq := some (BLOCK_SIZE, toSizeT len),
        allocAddr := some (env.allocUnits * BLOCK_SIZE),
        reads := [(env.allocUnits * BLOCK_SIZE, toSizeT (intCast len))],
        copied := none, freed := false, buf := buf, stream := env.stream,
        outcome := .unixError e "read" } := by
  obtain ⟨af, au, re, st⟩ := env
  cases haf
  cases hre
  rfl

/-- On the success path: the read transfers the next
`min count MAX_RW_COUNT` bytes of the stream, exactly those bytes are
moved into `buf` at offset `ofs`, the staging buffer is freed, and the byte
count is returned. -/
theorem stub_success_eq (env : Env) (fd : Int) (buf : List Nat)
    (ofs len : Int) (haf : env.allocFail = none) (hre : env.readErr = none) :
    stub_stdext_unix_read env fd buf ofs len =
      { allocReq := some (BLOCK_SIZE, toSizeT len),
        allocAddr := some (env.allocUnits * BLOCK_SIZE),
        reads := [(env.allocUnits * BLOCK_SIZE, toSizeT (intCast len))],
        copied := some (env.stream.take
          (min (toSizeT (intCast len)) MAX_RW_COUNT)).length,
        freed := true,
        buf := writeBytes buf (toSizeT ofs)
          (env.stream.take (min (toSizeT (intCast len)) MAX_RW_COUNT)),
        stream := env.stream.drop (min (toSizeT (intCast len)) MAX_RW_COUNT),
        outcome := .ok (env.stream.take
          (min (toSizeT (intCast len)) MAX_RW_COUNT)).length } := by
  obtain ⟨af, au, re, st⟩ := env
  cases haf
  cases hre
  have hlen : (st.take (min (toSizeT (intCast len)) MAX_RW_COUNT)).length
      ≤ 2147479552 := by
    simp only [List.length_take, MAX_RW_COUNT]
    omega
  have hret : intCast ((st.take
      (min (toSizeT (intCast len)) MAX_RW_COUNT)).length : Int)
      = ((st.take (min (toSizeT (intCast len)) MAX_RW_COUNT)).length : Int) := by
    apply intCast_eq_self (by positivity)
    omega
  have h3 : toSizeT ((st.take
      (min (toSizeT (intCast len)) MAX_RW_COUNT)).length : Int)
      = (st.take (min (toSizeT (intCast len)) MAX_RW_COUNT)).length := by
    rw [toSizeT_eq_toNat (by positivity) (by omega), Int.toNat_natCast]
  unfold stub_stdext_unix_read
  simp only [hret, h3, List.take_length]

/-! ### Claim theorems -/

/-- C1: the claim states that when the read syscall reports an error, the
already-allocated staging buffer is released before the ReadFailed error
propagates.  The code does the opposite: `uerror("read", Nothing)` raises
the OCaml exception immediately, so control leaves the stub before
`free(iobuf)` is reached and the staging buffer is leaked.  Concretely, with
allocation succeeding (staging block at address 7 * 512 = 3584) and the
descriptor in an error state (errno 9 = EBADF), the call raises
Unix_error (9, "read", "") with `freed = false`: the staging buffer is still
allocated when the error propagates.  Since the success path does free the
buffer and the documented design says no leak on the error path, this is a
memory leak bug in the code. -/
theorem c1_read_error_leaks_staging :
    (stub_stdext_unix_read ⟨none, 7, some 9, [1, 2, 3]⟩ 4 [0, 0, 0, 0] 0
        4).outcome = .unixError 9 "read" ∧
    (stub_stdext_unix_read ⟨none, 7, some 9, [1, 2, 3]⟩ 4 [0, 0, 0, 0] 0
        4).allocAddr = some 3584 ∧
    (stub_stdext_unix_read ⟨none, 7, some 9, [1, 2, 3]⟩ 4 [0, 0, 0, 0] 0
        4).freed = false := by
  decide

/-- C2 counterexample: the claim says the byte count requested from the read
syscall equals the length argument for every non-negative length.  It fails
at length 2^32 = 4294967296: the C code casts the count to a 32-bit int on
the way to the syscall (`(int) numbytes`), and the cast of 2^32 is 0, so the
syscall is asked for 0 bytes, not 2^32. -/
theorem c2_counterexample_truncated_count :
    (stub_stdext_unix_read ⟨none, 1, none, []⟩ 3 [] 0 4294967296).reads
      = [(512, 0)] ∧ (4294967296 : Int) ≠ 0 := by
  decide

/-- C2 (amended): for every non-negative length strictly below 2^31, the byte
count requested from the read syscall equals the length argument. -/
theorem c2_read_count_equals_length (env : Env) (fd : Int) (buf : List Nat)
    (ofs len : Int) (haf : env.allocFail = none) (h0 : 0 ≤ len)
    (h1 : len < 2147483648) :
    (stub_stdext_unix_read env fd buf ofs len).reads
      = [(env.allocUnits * BLOCK_SIZE, len.toNat)] := by
  have hc : toSizeT (intCast len) = len.toNat := by
    rw [intCast_eq_self h0 h1, toSizeT_eq_toNat h0 (by omega)]
  rcases hre : env.readErr with _ | e
  · rw [stub_success_eq env fd buf ofs len haf hre, hc]
  · rw [stub_readErr_eq env fd buf ofs len e haf hre, hc]

/-- Witness for the amended C2 at length 5. -/
theorem c2_read_count_equals_length_witness :
    (stub_stdext_unix_read ⟨none, 1, none, []⟩ 3 [] 0 5).reads = [(512, 5)] := by
  have h := c2_read_count_equals_length ⟨none, 1, none, []⟩ 3 [] 0 5 rfl
    (by decide) (by decide)
  simpa [BLOCK_SIZE] using h

/-- C3: if the aligned allocation fails, the call raises the allocation
error (code and the name "read/posix_memalign" identifying the allocator),
no staging buffer exists, no read syscall is issued, nothing is freed, and
the destination buffer is untouched. -/
theorem c3_alloc_failure_raises (env : Env) (fd : Int) (buf : List Nat)
    (ofs len : Int) (e : Nat) (haf : env.allocFail = some e) :
    (stub_stdext_unix_read env fd buf ofs len).outcome
        = .unixError e "read/posix_memalign" ∧
    (stub_stdext_unix_read env fd buf ofs len).allocAddr = none ∧
    (stub_stdext_unix_read env fd buf ofs len).freed = false ∧
    (stub_stdext_unix_read env fd buf ofs len).reads = [] ∧
    (stub_stdext_unix_read env fd buf ofs len).buf = buf := by
  rw [stub_allocFail_eq env fd buf ofs len e haf]
  exact ⟨rfl, rfl, rfl, rfl, rfl⟩

/-- Witness for C3 with allocator error 12 (ENOMEM). -/
theorem c3_alloc_failure_raises_witness :
    (stub_stdext_unix_read ⟨some 12, 0, none, [1]⟩ 3 [5, 5] 0 2).outcome
        = .unixError 12 "read/posix_memalign" ∧
    (stub_stdext_unix_read ⟨some 12, 0, none, [1]⟩ 3 [5, 5] 0 2).allocAddr
        = none ∧
    (stub_stdext_unix_read ⟨some 12, 0, none, [1]⟩ 3 [5, 5] 0 2).freed
        = false ∧
    (stub_stdext_unix_read ⟨some 12, 0, none, [1]⟩ 3 [5, 5] 0 2).reads = [] ∧
    (stub_stdext_unix_read ⟨some 12, 0, none, [1]⟩ 3 [5, 5] 0 2).buf
        = [5, 5] :=
  c3_alloc_failure_raises ⟨some 12, 0, none, [1]⟩ 3 [5, 5] 0 2 12 rfl

/-- C6: a call on a descriptor in an error state (invalid or closed, errno
`e`) raises the error outcome carrying the operation name "read" and the OS
error code — modelled by the `Outcome.unixError` constructor, the raised
OCaml `Unix_error` exception, distinct from a normal `Outcome.ok` sentinel
return — and leaves the destination buffer entirely unmodified. -/
theorem c6_invalid_fd_raises (env : Env) (fd : Int) (buf : List Nat)
    (ofs len : Int) (e : Nat) (haf : env.allocFail = none)
    (hre : env.readErr = some e) :
    (stub_stdext_unix_read env fd buf ofs len).outcome
        = .unixError e "read" ∧
    (stub_stdext_unix_read env fd buf ofs len).buf = buf := by
  rw [stub_readErr_eq env fd buf ofs len e haf hre]
  exact ⟨rfl, rfl⟩

/-- Witness for C6 with errno 9 (EBADF, closed descriptor). -/
theorem c6_invalid_fd_raises_witness :
    (stub_stdext_unix_read ⟨none, 1, some 9, []⟩ 5 [3, 1, 4] 1 2).outcome
        = .unixError 9 "read" ∧
    (stub_stdext_unix_read ⟨none, 1, some 9, []⟩ 5 [3, 1, 4] 1 2).buf
        = [3, 1, 4] :=
  c6_invalid_fd_raises ⟨none, 1, some 9, []⟩ 5 [3, 1, 4] 1 2 9 rfl rfl

/-- C7: whenever the read yields zero bytes — length 0 requested, or the
descriptor at end-of-stream (empty remaining stream) — the call succeeds
with return value 0, zero bytes are passed to memmove, and the destination
buffer is unchanged. -/
theorem c7_zero_read_succeeds (env : Env) (fd : Int) (buf : List Nat)
    (ofs len : Int) (haf : env.allocFail = none) (hre : env.readErr = none)
    (hz : len = 0 ∨ env.stream = []) :
    (stub_stdext_unix_read env fd buf ofs len).outcome = .ok 0 ∧
    (stub_stdext_unix_read env fd buf ofs len).buf = buf ∧
    (stub_stdext_unix_read env fd buf ofs len).copied = some 0 := by
  rw [stub_success_eq env fd buf ofs len haf hre]
  have hdata : env.stream.take (min (toSizeT (intCast len)) MAX_RW_COUNT)
      = [] := by
    rcases hz with hz | hz
    · subst hz
      have h0 : toSizeT (intCast 0) = 0 := by decide
      rw [h0]
      simp
    · rw [hz]
      simp
  rw [hdata]
  exact ⟨rfl, writeBytes_nil buf _, rfl⟩

/-- Witness for C7: reading zero bytes (length 0) from a non-empty
descriptor succeeds with 0 and an untouched buffer. -/
theorem c7_zero_read_succeeds_witness :
    (stub_stdext_unix_read ⟨none, 1, none, [8, 9]⟩ 3 [4, 4] 0 0).outcome
        = .ok 0 ∧
    (stub_stdext_unix_read ⟨none, 1, none, [8, 9]⟩ 3 [4, 4] 0 0).buf
        = [4, 4] ∧
    (stub_stdext_unix_read ⟨none, 1, none, [8, 9]⟩ 3 [4, 4] 0 0).copied
        = some 0 :=
  c7_zero_read_succeeds ⟨none, 1, none, [8, 9]⟩ 3 [4, 4] 0 0 rfl rfl
    (Or.inl rfl)

/-- C4: every successful call returns some byte count `n` such that the
destination holds exactly the `n` bytes read (the first `n` bytes the
descriptor delivered) at positions `ofs .. ofs + n`, in order, and every
position outside that range keeps its previous value — in particular the
tail beyond `ofs + n` after a partial read is not zeroed.  The offset is
within the OCaml native integer range (non-negative, below 2^62). -/
theorem c4_success_copies_exact (env : Env) (fd : Int) (buf : List Nat)
    (ofs len : Int) (haf : env.allocFail = none) (hre : env.readErr = none)
    (h0 : 0 ≤ ofs) (h1 : ofs < 4611686018427387904) :
    ∃ n : Nat, (stub_stdext_unix_read env fd buf ofs len).outcome = .ok n ∧
      (stub_stdext_unix_read env fd buf ofs len).buf.length = buf.length ∧
      ∀ i, i < buf.length →
        (stub_stdext_unix_read env fd buf ofs len).buf.getD i 0 =
          if ofs.toNat ≤ i ∧ i < ofs.toNat + n
          then env.stream.getD (i - ofs.toNat) 0
          else buf.getD i 0 := by
  have hofs : toSizeT ofs = ofs.toNat := toSizeT_eq_toNat h0 (by omega)
  refine ⟨(env.stream.take (min (toSizeT (intCast len)) MAX_RW_COUNT)).length,
    ?_, ?_, ?_⟩
  · rw [stub_success_eq env fd buf ofs len haf hre]
  · rw [stub_success_eq env fd buf ofs len haf hre]
    exact writeBytes_length _ _ _
  · intro i hi
    rw [stub_success_eq env fd buf ofs len haf hre, hofs]
    show (writeBytes buf ofs.toNat
        (env.stream.take (min (toSizeT (intCast len)) MAX_RW_COUNT))).getD i 0
      = _
    rw [writeBytes_getD buf _ ofs.toNat i hi]
    by_cases hw : ofs.toNat ≤ i ∧ i < ofs.toNat +
        (env.stream.take (min (toSizeT (intCast len)) MAX_RW_COUNT)).length
    · rw [if_pos hw, if_pos hw]
      exact take_getD env.stream _ (i - ofs.toNat) (by omega)
    · rw [if_neg hw, if_neg hw]

/-- Witness for C4: the concrete scenario of the specification — a 10-byte
source, offset 5, length 20, destination of 25 bytes pre-filled with the
sentinel 7.  The call returns 10, positions 5..15 hold the source bytes,
positions 0..5 and 15..25 still hold the sentinel. -/
theorem c4_success_copies_exact_witness :
    ∃ n : Nat,
      (stub_stdext_unix_read ⟨none, 2, none, [1, 2, 3, 4, 5, 6, 7, 8, 9, 10]⟩
          3 (List.replicate 25 7) 5 20).outcome = .ok n ∧
      (stub_stdext_unix_read ⟨none, 2, none, [1, 2, 3, 4, 5, 6, 7, 8, 9, 10]⟩
          3 (List.replicate 25 7) 5 20).buf.length
        = (List.replicate 25 7).length ∧
      ∀ i, i < (List.replicate 25 7).length →
        (stub_stdext_unix_read ⟨none, 2, none, [1, 2, 3, 4, 5, 6, 7, 8, 9, 10]⟩
            3 (List.replicate 25 7) 5 20).buf.getD i 0 =
          if (5 : Int).toNat ≤ i ∧ i < (5 : Int).toNat + n
          then List.getD [1, 2, 3, 4, 5, 6, 7, 8, 9, 10] (i - (5 : Int).toNat) 0
          else (List.replicate 25 7).getD i 0 :=
  c4_success_copies_exact ⟨none, 2, none, [1, 2, 3, 4, 5, 6, 7, 8, 9, 10]⟩ 3
    (List.replicate 25 7) 5 20 rfl rfl (by decide) (by decide)

/-- C5: for every non-negative length, a successful call returns a byte
count `n` with `0 ≤ n ≤ length`, and the number of bytes handed to memmove
is exactly `n` — so it never exceeds the length and never exceeds what the
underlying read returned. -/
theorem c5_return_count_bounded (env : Env) (fd : Int) (buf : List Nat)
    (ofs len : Int) (haf : env.allocFail = none) (hre : env.readErr = none)
    (h0 : 0 ≤ len) :
    ∃ n : Nat, (stub_stdext_unix_read env fd buf ofs len).outcome = .ok n ∧
      (0 : Int) ≤ (n : Int) ∧ (n : Int) ≤ len ∧
      (stub_stdext_unix_read env fd buf ofs len).copied = some n := by
  refine ⟨(env.stream.take (min (toSizeT (intCast len)) MAX_RW_COUNT)).length,
    ?_, by positivity, ?_, ?_⟩
  · rw [stub_success_eq env fd buf ofs len haf hre]
  · have h1 : (env.stream.take
        (min (toSizeT (intCast len)) MAX_RW_COUNT)).length
        ≤ min (toSizeT (intCast len)) MAX_RW_COUNT := by
      simp [List.length_take]
    by_cases h2 : len < 2147483648
    · have h3 : toSizeT (intCast len) = len.toNat := by
        rw [intCast_eq_self h0 h2, toSizeT_eq_toNat h0 (by omega)]
      rw [h3] at h1 ⊢
      unfold MAX_RW_COUNT at h1 ⊢
      omega
    · unfold MAX_RW_COUNT at h1 ⊢
      omega
  · rw [stub_success_eq env fd buf ofs len haf hre]

/-- Witness for C5: reading up to 2 bytes from a 3-byte source returns 2
with exactly 2 bytes copied. -/
theorem c5_return_count_bounded_witness :
    ∃ n : Nat,
      (stub_stdext_unix_read ⟨none, 1, none, [10, 20, 30]⟩ 3 [0, 0] 0
          2).outcome = .ok n ∧
      (0 : Int) ≤ (n : Int) ∧ (n : Int) ≤ 2 ∧
      (stub_stdext_unix_read ⟨none, 1, none, [10, 20, 30]⟩ 3 [0, 0] 0
          2).copied = some n :=
  c5_return_count_bounded ⟨none, 1, none, [10, 20, 30]⟩ 3 [0, 0] 0 2 rfl rfl
    (by decide)

/-- C8: each invocation issues at most one read syscall — no internal retry
loop exists on any path — and the concrete two-call scenario of the
specification holds: over the 6-byte source [65, 66, 67, 68, 69, 70] (the
bytes A..F), a first call with length 4 returns 4 and copies the first four
bytes, leaving [69, 70] in the descriptor; a second call with length 4 on
that remainder returns 2 (not 4) and copies exactly those two bytes. -/
theorem c8_single_read_no_retry :
    (∀ (env : Env) (fd : Int) (buf : List Nat) (ofs len : Int),
        (stub_stdext_unix_read env fd buf ofs len).reads.length ≤ 1) ∧
    (stub_stdext_unix_read ⟨none, 1, none, [65, 66, 67, 68, 69, 70]⟩ 3
        [0, 0, 0, 0] 0 4).outcome = .ok 4 ∧
    (stub_stdext_unix_read ⟨none, 1, none, [65, 66, 67, 68, 69, 70]⟩ 3
        [0, 0, 0, 0] 0 4).buf = [65, 66, 67, 68] ∧
    (stub_stdext_unix_read ⟨none, 1, none, [65, 66, 67, 68, 69, 70]⟩ 3
        [0, 0, 0, 0] 0 4).stream = [69, 70] ∧
    (stub_stdext_unix_read ⟨none, 1, none, [69, 70]⟩ 3 [0, 0, 0, 0] 0
        4).outcome = .ok 2 ∧
    (stub_stdext_unix_read ⟨none, 1, none, [69, 70]⟩ 3 [0, 0, 0, 0] 0
        4).buf = [69, 70, 0, 0] := by
  constructor
  · intro env fd buf ofs len
    rcases haf : env.allocFail with _ | e
    · rcases hre : env.readErr with _ | e
      · rw [stub_success_eq env fd buf ofs len haf hre]
        simp
      · rw [stub_readErr_eq env fd buf ofs len e haf hre]
        simp
    · rw [stub_allocFail_eq env fd buf ofs len e haf]
      simp
  · decide

/-- C9: for every call with a length in the OCaml native integer range, the
allocation request passed to the aligned allocator is for alignment
BLOCK_SIZE = 512 (the fixed compile-time constant) and a size of exactly
`length` bytes, and whenever a staging buffer is obtained its address is a
multiple of 512 and is exactly the address handed to the read syscall. -/
theorem c9_staging_aligned (env : Env) (fd : Int) (buf : List Nat)
    (ofs len : Int) (h0 : 0 ≤ len) (h1 : len < 4611686018427387904) :
    (stub_stdext_unix_read env fd buf ofs len).allocReq
        = some (BLOCK_SIZE, len.toNat) ∧ BLOCK_SIZE = 512 ∧
    ∀ a, (stub_stdext_unix_read env fd buf ofs len).allocAddr = some a →
      a % 512 = 0 ∧
      ∀ p ∈ (stub_stdext_unix_read env fd buf ofs len).reads, p.1 = a := by
  have hsz : toSizeT len = len.toNat := toSizeT_eq_toNat h0 (by omega)
  rcases haf : env.allocFail with _ | e
  · rcases hre : env.readErr with _ | e
    · rw [stub_success_eq env fd buf ofs len haf hre, hsz]
      refine ⟨rfl, rfl, ?_⟩
      intro a ha
      simp only [Option.some.injEq] at ha
      subst ha
      refine ⟨by simp [BLOCK_SIZE, Nat.mul_mod_left], ?_⟩
      intro p hp
      simp only [List.mem_singleton] at hp
      subst hp
      rfl
    · rw [stub_readErr_eq env fd buf ofs len e haf hre, hsz]
      refine ⟨rfl, rfl, ?_⟩
      intro a ha
      simp only [Option.some.injEq] at ha
      subst ha
      refine ⟨by simp [BLOCK_SIZE, Nat.mul_mod_left], ?_⟩
      intro p hp
      simp only [List.mem_singleton] at hp
      subst hp
      rfl
  · rw [stub_allocFail_eq env fd buf ofs len e haf, hsz]
    refine ⟨rfl, rfl, ?_⟩
    intro a ha
    simp at ha

/-- Witness for C9: a successful call with length 5 requests a 512-aligned
block of 5 bytes and reads into the 512-multiple address it received. -/
theorem c9_staging_aligned_witness :
    (stub_stdext_unix_read ⟨none, 3, none, [1, 2]⟩ 4 [0, 0, 0, 0, 0] 0
        5).allocReq = some (BLOCK_SIZE, (5 : Int).toNat) ∧ BLOCK_SIZE = 512 ∧
    ∀ a, (stub_stdext_unix_read ⟨none, 3, none, [1, 2]⟩ 4 [0, 0, 0, 0, 0] 0
        5).allocAddr = some a →
      a % 512 = 0 ∧
      ∀ p ∈ (stub_stdext_unix_read ⟨none, 3, none, [1, 2]⟩ 4 [0, 0, 0, 0, 0] 0
          5).reads, p.1 = a :=
  c9_staging_aligned ⟨none, 3, none, [1, 2]⟩ 4 [0, 0, 0, 0, 0] 0 5 (by decide)
    (by decide)

/-- C10: the destination buffer is output-only.  Two calls that agree on the
descriptor state, offset and length but start from destination buffers of
the same size with different contents produce the same outcome, the same
syscall interactions, the same remaining stream, the same memmove size, and
write the same bytes at every position of the written window
`ofs .. ofs + n`: nothing the call does depends on the prior contents of the
destination. -/
theorem c10_dest_output_only (env : Env) (fd : Int) (ofs len : Int)
    (buf1 buf2 : List Nat) (hlen : buf1.length = buf2.length) (h0 : 0 ≤ ofs)
    (h1 : ofs < 4611686018427387904) :
    (stub_stdext_unix_read env fd buf1 ofs len).outcome
        = (stub_stdext_unix_read env fd buf2 ofs len).outcome ∧
    (stub_stdext_unix_read env fd buf1 ofs len).reads
        = (stub_stdext_unix_read env fd buf2 ofs len).reads ∧
    (stub_stdext_unix_read env fd buf1 ofs len).copied
        = (stub_stdext_unix_read env fd buf2 ofs len).copied ∧
    (stub_stdext_unix_read env fd buf1 ofs len).stream
        = (stub_stdext_unix_read env fd buf2 ofs len).stream ∧
    ∀ n : Nat, (stub_stdext_unix_read env fd buf1 ofs len).outcome = .ok n →
      ∀ i, ofs.toNat ≤ i → i < ofs.toNat + n →
        (stub_stdext_unix_read env fd buf1 ofs len).buf.getD i 0
          = (stub_stdext_unix_read env fd buf2 ofs len).buf.getD i 0 := by
  have hofs : toSizeT ofs = ofs.toNat := toSizeT_eq_toNat h0 (by omega)
  rcases haf : env.allocFail with _ | e
  · rcases hre : env.readErr with _ | e
    · rw [stub_success_eq env fd buf1 ofs len haf hre,
        stub_success_eq env fd buf2 ofs len haf hre, hofs]
      refine ⟨rfl, rfl, rfl, rfl, ?_⟩
      intro n hn i hi1 hi2
      simp only [Outcome.ok.injEq] at hn
      have hn2 : n = (env.stream.take
          (min (toSizeT (intCast len)) MAX_RW_COUNT)).length := by
        exact_mod_cast hn.symm
      subst hn2
      by_cases hb : i < buf1.length
      · show (writeBytes buf1 ofs.toNat _).getD i 0
          = (writeBytes buf2 ofs.toNat _).getD i 0
        rw [writeBytes_getD buf1 _ ofs.toNat i hb,
          writeBytes_getD buf2 _ ofs.toNat i (by omega),
          if_pos ⟨hi1, hi2⟩, if_pos ⟨hi1, hi2⟩]
      · show (writeBytes buf1 ofs.toNat _).getD i 0
          = (writeBytes buf2 ofs.toNat _).getD i 0
        rw [writeBytes_getD_high buf1 _ ofs.toNat i (by omega),
          writeBytes_getD_high buf2 _ ofs.toNat i (by omega)]
    · rw [stub_readErr_eq env fd buf1 ofs len e haf hre,
        stub_readErr_eq env fd buf2 ofs len e haf hre]
      refine ⟨rfl, rfl, rfl, rfl, ?_⟩
      intro n hn
      exact absurd hn (by simp)
  · rw [stub_allocFail_eq env fd buf1 ofs len e haf,
      stub_allocFail_eq env fd buf2 ofs len e haf]
    refine ⟨rfl, rfl, rfl, rfl, ?_⟩
    intro n hn
    exact absurd hn (by simp)

/-- Witness for C10: the same one-byte read into [1, 2, 3] and into
[9, 8, 7] at offset 1 behaves identically on the written window. -/
theorem c10_dest_output_only_witness :
    (stub_stdext_unix_read ⟨none, 1, none, [5]⟩ 6 [1, 2, 3] 1 1).outcome
        = (stub_stdext_unix_read ⟨none, 1, none, [5]⟩ 6 [9, 8, 7] 1 1).outcome ∧
    (stub_stdext_unix_read ⟨none, 1, none, [5]⟩ 6 [1, 2, 3] 1 1).reads
        = (stub_stdext_unix_read ⟨none, 1, none, [5]⟩ 6 [9, 8, 7] 1 1).reads ∧
    (stub_stdext_unix_read ⟨none, 1, none, [5]⟩ 6 [1, 2, 3] 1 1).copied
        = (stub_stdext_unix_read ⟨none, 1, none, [5]⟩ 6 [9, 8, 7] 1 1).copied ∧
    (stub_stdext_unix_read ⟨none, 1, none, [5]⟩ 6 [1, 2, 3] 1 1).stream
        = (stub_stdext_unix_read ⟨none, 1, none, [5]⟩ 6 [9, 8, 7] 1 1).stream ∧
    ∀ n : Nat,
      (stub_stdext_unix_read ⟨none, 1, none, [5]⟩ 6 [1, 2, 3] 1 1).outcome
        = .ok n →
      ∀ i, (1 : Int).toNat ≤ i → i < (1 : Int).toNat + n →
        (stub_stdext_unix_read ⟨none, 1, none, [5]⟩ 6 [1, 2, 3] 1 1).buf.getD
            i 0
          = (stub_stdext_unix_read ⟨none, 1, none, [5]⟩ 6 [9, 8, 7] 1
              1).buf.getD i 0 :=
  c10_dest_output_only ⟨none, 1, none, [5]⟩ 6 1 1 [1, 2, 3] [9, 8, 7] rfl
    (by decide) (by decide)
